/-
Verification of the NBA sports-analytics ETL repository.

This file gives a shallow embedding of the repository's core logic and
proves (or refutes) the stated properties about it:

* `get_nba_stats.py` — the Stats Ingestion Loop (`store_stats_and_update_games`,
  `store_players`, `store_games`) and the Game-Detail Backfill Loop;
* `get_sun_data.py` — the Sun-Time Ingestion Loop (`store_sun_data`);
* `analysis.py` — the before/after-sunset classification and per-player
  aggregation (`analyze_player_performance`);
* `scrape_arenas.py` — the arena upsert (`ON CONFLICT(arena_name) DO UPDATE`).

External HTTP sources are modelled as oracle parameters (a list of pages for
the paginated stats source, functions for the per-game detail endpoint and
the sunrise/sunset endpoint).  SQLite tables are modelled as Lean lists of
row structures; SQL `SELECT`/`INSERT`/`UPDATE` statements become list
operations that mirror the statements used in the scripts.
-/
import Mathlib

namespace SportsETL

/-! ## Data model for `get_nba_stats.py`

Tables `players`, `games`, `game_stats` (created in
`store_stats_and_update_games`).  `REAL`/`INTEGER` columns that may be NULL
are `Option` valued. -/

/-- A row of the `players` table. -/
structure PlayerRow where
  player_id : Nat
  first_name : String
  last_name : String
  position : String
  team_id : Nat
deriving DecidableEq, Repr

/-- A row of the `games` table.  A stub row has only `game_id`; the backfill
loop later fills the remaining columns. -/
structure GameRow where
  game_id : Nat
  date : Option String
  time : Option String
  home_team_id : Option Nat
  visitor_team_id : Option Nat
  season : Option Nat
deriving DecidableEq, Repr

/-- A row of the `game_stats` table. -/
structure GameStatRow where
  stat_id : Nat
  player_id : Nat
  game_id : Nat
  pts : Option Int
  reb : Option Int
  ast : Option Int
deriving DecidableEq, Repr

/-- The portion of the database touched by `get_nba_stats.py`. -/
structure StatsDb where
  players : List PlayerRow
  games : List GameRow
  game_stats : List GameStatRow
deriving DecidableEq, Repr

/-- One record of a stats page (`item` in the Python loops): the stat id,
the embedded `player` and `team` sub-objects, the embedded `game` id, and
the stat line. -/
structure StatRecord where
  id : Nat
  player_id : Nat
  player_first_name : String
  player_last_name : String
  player_position : String
  team_id : Nat
  game_id : Nat
  pts : Option Int
  reb : Option Int
  ast : Option Int
deriving DecidableEq, Repr

/-- One response of the paginated stats source: `data` plus
`meta.next_cursor`. -/
structure Page where
  data : List StatRecord
  next_cursor : Option Nat
deriving DecidableEq, Repr

/-- `store_players`: for each record, insert a player row only when no row
with that `player_id` exists yet (existing rows are never refreshed). -/
def store_players (db : StatsDb) : List StatRecord → StatsDb
  | [] => db
  | item :: rest =>
    if db.players.any (fun p => p.player_id = item.player_id) then
      store_players db rest
    else
      store_players
        { db with players := db.players ++
            [⟨item.player_id, item.player_first_name, item.player_last_name,
              item.player_position, item.team_id⟩] } rest

/-- `store_games`: for each record, insert a stub game row (only the id)
when no row with that `game_id` exists yet. -/
def store_games (db : StatsDb) : List StatRecord → StatsDb
  | [] => db
  | item :: rest =>
    if db.games.any (fun g => g.game_id = item.game_id) then
      store_games db rest
    else
      store_games
        { db with games := db.games ++
            [⟨item.game_id, none, none, none, none, none⟩] } rest

/-- The per-invocation cap on newly inserted stat rows (`25` in
`store_stats_and_update_games`). -/
def statCap : Nat := 25

/-- The inner `for item in data["data"]` loop of
`store_stats_and_update_games`: skip records whose `stat_id` is already
stored; otherwise insert the stat row, bump `inserted_stats`, and break out
of the page as soon as the cap is reached. -/
def store_stats_page (db : StatsDb) (inserted : Nat) :
    List StatRecord → StatsDb × Nat
  | [] => (db, inserted)
  | item :: rest =>
    if db.game_stats.any (fun s => s.stat_id = item.id) then
      store_stats_page db inserted rest
    else
      let db' := { db with game_stats := db.game_stats ++
        [⟨item.id, item.player_id, item.game_id, item.pts, item.reb, item.ast⟩] }
      let inserted' := inserted + 1
      if statCap ≤ inserted' then (db', inserted')
      else store_stats_page db' inserted' rest

/-- Processing of one fetched page: `store_players`, then `store_games`,
then the stat-insertion loop — in exactly that order. -/
def process_page (db : StatsDb) (inserted : Nat) (page : Page) :
    StatsDb × Nat :=
  let db1 := store_players db page.data
  let db2 := store_games db1 page.data
  store_stats_page db2 inserted page.data

/-- The `while inserted_stats < 25` loop of `store_stats_and_update_games`.
The paginated source is modelled by the list of pages its cursor chain
would yield in order; the loop stops when the cap is reached (checked
before each fetch), when a page carries no `next_cursor`, or when the
source is exhausted. -/
def stats_loop (db : StatsDb) (inserted : Nat) : List Page → StatsDb × Nat
  | [] => (db, inserted)
  | page :: rest =>
    if statCap ≤ inserted then (db, inserted)
    else
      let (db', inserted') := process_page db inserted page
      match page.next_cursor with
      | none => (db', inserted')
      | some _ => stats_loop db' inserted' rest

/-- The stats-ingestion phase of `store_stats_and_update_games`, starting
from `inserted_stats = 0` and `cursor = None`. -/
def store_stats (db : StatsDb) (pages : List Page) : StatsDb × Nat :=
  stats_loop db 0 pages

/-! ### Basic preservation lemmas for the stats loop -/

theorem store_players_games_eq (l : List StatRecord) : ∀ db : StatsDb,
    (store_players db l).games = db.games := by
  induction l with
  | nil => intro db; rfl
  | cons item rest ih =>
    intro db
    simp only [store_players]
    split <;> exact ih _

theorem store_players_game_stats_eq (l : List StatRecord) : ∀ db : StatsDb,
    (store_players db l).game_stats = db.game_stats := by
  induction l with
  | nil => intro db; rfl
  | cons item rest ih =>
    intro db
    simp only [store_players]
    split <;> exact ih _

theorem store_games_players_eq (l : List StatRecord) : ∀ db : StatsDb,
    (store_games db l).players = db.players := by
  induction l with
  | nil => intro db; rfl
  | cons item rest ih =>
    intro db
    simp only [store_games]
    split <;> exact ih _

theorem store_games_game_stats_eq (l : List StatRecord) : ∀ db : StatsDb,
    (store_games db l).game_stats = db.game_stats := by
  induction l with
  | nil => intro db; rfl
  | cons item rest ih =>
    intro db
    simp only [store_games]
    split <;> exact ih _

theorem store_stats_page_players_eq (l : List StatRecord) :
    ∀ (db : StatsDb) (inserted : Nat),
    (store_stats_page db inserted l).1.players = db.players := by
  induction l with
  | nil => intro db inserted; rfl
  | cons item rest ih =>
    intro db inserted
    simp only [store_stats_page]
    split
    · exact ih _ _
    · split
      · rfl
      · exact ih _ _

theorem store_stats_page_games_eq (l : List StatRecord) :
    ∀ (db : StatsDb) (inserted : Nat),
    (store_stats_page db inserted l).1.games = db.games := by
  induction l with
  | nil => intro db inserted; rfl
  | cons item rest ih =>
    intro db inserted
    simp only [store_stats_page]
    split
    · exact ih _ _
    · split
      · rfl
      · exact ih _ _

/-! ### C1: idempotence on stat identity -/

theorem store_stats_page_nodup (l : List StatRecord) :
    ∀ (db : StatsDb) (inserted : Nat),
    ((db.game_stats.map (·.stat_id)).Nodup) →
    (((store_stats_page db inserted l).1.game_stats.map (·.stat_id)).Nodup) := by
  induction l with
  | nil => intro db inserted h; exact h
  | cons item rest ih =>
    intro db inserted h
    simp only [store_stats_page]
    split
    · exact ih _ _ h
    · rename_i hany
      have hnotmem : item.id ∉ db.game_stats.map (·.stat_id) := by
        simp only [List.any_eq_true, decide_eq_true_eq] at hany
        simp only [List.mem_map]
        rintro ⟨s, hs, hid⟩
        exact hany ⟨s, hs, hid⟩
      have h' : (((db.game_stats ++
          [(⟨item.id, item.player_id, item.game_id, item.pts, item.reb,
            item.ast⟩ : GameStatRow)]).map (fun s => s.stat_id)).Nodup) := by
        rw [List.map_append]
        refine List.Nodup.append h (List.nodup_singleton _) ?_
        simp only [List.map_cons, List.map_nil, List.disjoint_singleton]
        exact hnotmem
      split
      · exact h'
      · exact ih _ _ h'

theorem stats_loop_nodup (pages : List Page) :
    ∀ (db : StatsDb) (inserted : Nat),
    ((db.game_stats.map (·.stat_id)).Nodup) →
    (((stats_loop db inserted pages).1.game_stats.map (·.stat_id)).Nodup) := by
  induction pages with
  | nil => intro db inserted h; exact h
  | cons page rest ih =>
    intro db inserted h
    simp only [stats_loop]
    split
    · exact h
    · have h2 : (((store_games (store_players db page.data)
          page.data).game_stats.map (·.stat_id)).Nodup) := by
        rw [store_games_game_stats_eq, store_players_game_stats_eq]
        exact h
      have h3 := store_stats_page_nodup page.data _ inserted h2
      simp only [process_page]
      split
      · exact h3
      · exact ih _ _ h3

theorem store_stats_page_all_present (l : List StatRecord) :
    ∀ (db : StatsDb) (inserted : Nat),
    (∀ r ∈ l, r.id ∈ db.game_stats.map (·.stat_id)) →
    store_stats_page db inserted l = (db, inserted) := by
  induction l with
  | nil => intro db inserted _; rfl
  | cons item rest ih =>
    intro db inserted hall
    have hmem : item.id ∈ db.game_stats.map (·.stat_id) :=
      hall item (List.mem_cons_self _ _)
    simp only [List.mem_map] at hmem
    obtain ⟨s, hs, hid⟩ := hmem
    simp only [store_stats_page]
    rw [if_pos]
    · exact ih db inserted (fun r hr => hall r (List.mem_cons_of_mem _ hr))
    · simp only [List.any_eq_true, decide_eq_true_eq]
      exact ⟨s, hs, hid⟩

theorem stats_loop_all_present (pages : List Page) :
    ∀ (db : StatsDb) (inserted : Nat),
    (∀ p ∈ pages, ∀ r ∈ p.data, r.id ∈ db.game_stats.map (·.stat_id)) →
    (stats_loop db inserted pages).1.game_stats = db.game_stats ∧
    (stats_loop db inserted pages).2 = inserted := by
  induction pages with
  | nil => intro db inserted _; exact ⟨rfl, rfl⟩
  | cons page rest ih =>
    intro db inserted hall
    simp only [stats_loop]
    split
    · exact ⟨rfl, rfl⟩
    · simp only [process_page]
      have hstats : (store_games (store_players db page.data)
          page.data).game_stats = db.game_stats := by
        rw [store_games_game_stats_eq, store_players_game_stats_eq]
      have hpage : store_stats_page (store_games (store_players db page.data)
          page.data) inserted page.data =
          (store_games (store_players db page.data) page.data, inserted) := by
        apply store_stats_page_all_present
        intro r hr
        rw [hstats]
        exact hall page (List.mem_cons_self _ _) r hr
      rw [hpage]
      split
      · exact ⟨hstats, rfl⟩
      · have ihr := ih (store_games (store_players db page.data) page.data)
          inserted (fun p hp r hr => by
            rw [hstats]
            exact hall p (List.mem_cons_of_mem _ hp) r hr)
        exact ⟨ihr.1.trans hstats, ihr.2⟩

/-- C1.  Stats ingestion is idempotent on stat identity: starting from a
`game_stats` table with pairwise-distinct stat ids, the Stats Ingestion Loop
never produces two rows with the same stat id, and when every record of
every fetched page has a stat id that is already stored (in particular when
the source is empty or exhausted) the loop inserts zero additional stat
rows. -/
theorem stats_ingestion_idempotent (db : StatsDb) (pages : List Page)
    (hnodup : (db.game_stats.map (·.stat_id)).Nodup) :
    (((store_stats db pages).1.game_stats.map (·.stat_id)).Nodup) ∧
    ((∀ p ∈ pages, ∀ r ∈ p.data, r.id ∈ db.game_stats.map (·.stat_id)) →
      (store_stats db pages).1.game_stats = db.game_stats ∧
      (store_stats db pages).2 = 0) :=
  ⟨stats_loop_nodup pages db 0 hnodup,
   fun hall => stats_loop_all_present pages db 0 hall⟩

/-- A sample database and page list exercising C1: the single record's
stat id `7` is already stored, so re-running inserts nothing. -/
def c1db : StatsDb :=
  ⟨[⟨15, "A", "B", "G", 3⟩], [⟨100, none, none, none, none, none⟩],
   [⟨7, 15, 100, some 10, some 2, some 3⟩]⟩

def c1pages : List Page :=
  [⟨[⟨7, 15, "A", "B", "G", 3, 100, some 10, some 2, some 3⟩], none⟩]

theorem stats_ingestion_idempotent_witness :
    (((store_stats c1db c1pages).1.game_stats.map (·.stat_id)).Nodup) ∧
    ((∀ p ∈ c1pages, ∀ r ∈ p.data, r.id ∈ c1db.game_stats.map (·.stat_id)) →
      (store_stats c1db c1pages).1.game_stats = c1db.game_stats ∧
      (store_stats c1db c1pages).2 = 0) :=
  stats_ingestion_idempotent c1db c1pages (by decide)

/-! ### C2: cap enforcement -/

theorem store_stats_page_le_cap (l : List StatRecord) :
    ∀ (db : StatsDb) (inserted : Nat), inserted < statCap →
    (store_stats_page db inserted l).2 ≤ statCap := by
  induction l with
  | nil => intro db inserted h; exact Nat.le_of_lt h
  | cons item rest ih =>
    intro db inserted h
    simp only [store_stats_page]
    split
    · exact ih _ _ h
    · split
      · exact Nat.succ_le_of_lt h
      · rename_i hlt
        exact ih _ _ (Nat.lt_of_not_le hlt)

theorem stats_loop_le_cap (pages : List Page) :
    ∀ (db : StatsDb) (inserted : Nat), inserted ≤ statCap →
    (stats_loop db inserted pages).2 ≤ statCap := by
  induction pages with
  | nil => intro db inserted h; exact h
  | cons page rest ih =>
    intro db inserted h
    simp only [stats_loop]
    split
    · exact h
    · rename_i hlt
      have hpage := store_stats_page_le_cap page.data
        (store_games (store_players db page.data) page.data) inserted
        (Nat.lt_of_not_le hlt)
      simp only [process_page]
      split
      · exact hpage
      · exact ih _ _ hpage

theorem store_stats_page_stop_mid_page (p1 : List StatRecord) :
    ∀ (p2 : List StatRecord) (db : StatsDb) (inserted : Nat),
    inserted < statCap →
    statCap ≤ (store_stats_page db inserted p1).2 →
    store_stats_page db inserted (p1 ++ p2) = store_stats_page db inserted p1 := by
  induction p1 with
  | nil =>
    intro p2 db inserted h hcap
    exact absurd hcap (Nat.not_le_of_lt h)
  | cons item rest ih =>
    intro p2 db inserted h hcap
    simp only [List.cons_append, store_stats_page] at hcap ⊢
    by_cases hany : (db.game_stats.any fun s => s.stat_id = item.id) = true
    · simp only [if_pos hany] at hcap ⊢
      exact ih p2 db inserted h hcap
    · simp only [if_neg hany] at hcap ⊢
      by_cases hcap2 : statCap ≤ inserted + 1
      · simp only [if_pos hcap2] at hcap ⊢
      · simp only [if_neg hcap2] at hcap ⊢
        exact ih p2 _ _ (Nat.lt_of_not_le hcap2) hcap

/-- C2.  Cap enforcement: any invocation of the Stats Ingestion Loop
inserts at most `statCap = 25` stat rows, however many pages and records
the source returns; and when the cap is reached while scanning a page
(`p1` already brings the count to the cap), the remainder `p2` of that page
is not scanned at all — processing `p1 ++ p2` equals processing `p1`
alone. -/
theorem stats_cap_enforced (db dbp : StatsDb) (pages : List Page)
    (inserted : Nat) (p1 p2 : List StatRecord)
    (h1 : inserted < statCap)
    (h2 : statCap ≤ (store_stats_page dbp inserted p1).2) :
    (store_stats db pages).2 ≤ statCap ∧
    store_stats_page dbp inserted (p1 ++ p2) = store_stats_page dbp inserted p1 :=
  ⟨stats_loop_le_cap pages db 0 (Nat.zero_le _),
   store_stats_page_stop_mid_page p1 p2 dbp inserted h1 h2⟩

/-- A single fresh record that pushes the count from 24 to the cap. -/
def c2rec : StatRecord := ⟨1, 15, "A", "B", "G", 3, 100, some 1, some 1, some 1⟩

def c2rec2 : StatRecord := ⟨2, 15, "A", "B", "G", 3, 100, some 1, some 1, some 1⟩

theorem stats_cap_enforced_witness :
    (store_stats ⟨[], [], []⟩ []).2 ≤ statCap ∧
    store_stats_page ⟨[], [], []⟩ 24 ([c2rec] ++ [c2rec2]) =
      store_stats_page ⟨[], [], []⟩ 24 [c2rec] :=
  stats_cap_enforced ⟨[], [], []⟩ ⟨[], [], []⟩ [] 24 [c2rec] [c2rec2]
    (by decide) (by decide)

/-! ### C10: players and games are upserted for the whole page before any
stat insertion -/

theorem store_players_mono (l : List StatRecord) : ∀ (db : StatsDb)
    (p : PlayerRow), p ∈ db.players → p ∈ (store_players db l).players := by
  induction l with
  | nil => intro db p hp; exact hp
  | cons item rest ih =>
    intro db p hp
    simp only [store_players]
    split
    · exact ih _ _ hp
    · exact ih _ _ (List.mem_append_left _ hp)

theorem store_games_mono (l : List StatRecord) : ∀ (db : StatsDb)
    (g : GameRow), g ∈ db.games → g ∈ (store_games db l).games := by
  induction l with
  | nil => intro db g hg; exact hg
  | cons item rest ih =>
    intro db g hg
    simp only [store_games]
    split
    · exact ih _ _ hg
    · exact ih _ _ (List.mem_append_left _ hg)

theorem store_players_covers (l : List StatRecord) : ∀ (db : StatsDb),
    ∀ r ∈ l, ∃ p ∈ (store_players db l).players,
      p.player_id = r.player_id := by
  induction l with
  | nil => intro db r hr; exact absurd hr (List.not_mem_nil _)
  | cons item rest ih =>
    intro db r hr
    rcases List.mem_cons.mp hr with heq | hmem
    · subst heq
      simp only [store_players]
      split
      · rename_i hany
        simp only [List.any_eq_true, decide_eq_true_eq] at hany
        obtain ⟨p, hp, hid⟩ := hany
        exact ⟨p, store_players_mono rest db p hp, hid⟩
      · refine ⟨⟨r.player_id, r.player_first_name, r.player_last_name,
          r.player_position, r.team_id⟩, ?_, rfl⟩
        apply store_players_mono
        exact List.mem_append_right _ (List.mem_singleton_self _)
    · simp only [store_players]
      split
      · exact ih _ r hmem
      · exact ih _ r hmem

theorem store_games_covers (l : List StatRecord) : ∀ (db : StatsDb),
    ∀ r ∈ l, ∃ g ∈ (store_games db l).games, g.game_id = r.game_id := by
  induction l with
  | nil => intro db r hr; exact absurd hr (List.not_mem_nil _)
  | cons item rest ih =>
    intro db r hr
    rcases List.mem_cons.mp hr with heq | hmem
    · subst heq
      simp only [store_games]
      split
      · rename_i hany
        simp only [List.any_eq_true, decide_eq_true_eq] at hany
        obtain ⟨g, hg, hid⟩ := hany
        exact ⟨g, store_games_mono rest db g hg, hid⟩
      · refine ⟨⟨r.game_id, none, none, none, none, none⟩, ?_, rfl⟩
        apply store_games_mono
        exact List.mem_append_right _ (List.mem_singleton_self _)
    · simp only [store_games]
      split
      · exact ih _ r hmem
      · exact ih _ r hmem

/-- C10.  Even when the stat cap is reached mid-page, every record of the
fetched page already has its Player row and its Game stub row present after
the page is processed, because `store_players` and `store_games` run over
the complete page before the stat-insertion loop starts. -/
theorem page_players_games_complete (db : StatsDb) (inserted : Nat)
    (page : Page) (r : StatRecord) (hr : r ∈ page.data) :
    (∃ p ∈ (process_page db inserted page).1.players,
      p.player_id = r.player_id) ∧
    (∃ g ∈ (process_page db inserted page).1.games,
      g.game_id = r.game_id) := by
  simp only [process_page]
  rw [store_stats_page_players_eq, store_stats_page_games_eq]
  constructor
  · rw [store_games_players_eq]
    exact store_players_covers page.data db r hr
  · exact store_games_covers page.data _ r hr

/-- A page with two records; the cap is at 24 so the second record's stat
is dropped, yet both records' player and game rows are present. -/
def c10page : Page := ⟨[c2rec, c2rec2], none⟩

theorem page_players_games_complete_witness :
    (∃ p ∈ (process_page ⟨[], [], []⟩ 24 c10page).1.players,
      p.player_id = c2rec2.player_id) ∧
    (∃ g ∈ (process_page ⟨[], [], []⟩ 24 c10page).1.games,
      g.game_id = c2rec2.game_id) :=
  page_players_games_complete ⟨[], [], []⟩ 24 c10page c2rec2
    (by decide)

/-! ## The Game-Detail Backfill Loop (second half of
`store_stats_and_update_games`) -/

/-- The payload of the per-game detail endpoint
(`GET /v1/games/{game_id}`): the combined ISO date-time plus the schedule
fields the `UPDATE` statement stores. -/
structure GameDetail where
  datetime : String
  home_team_id : Nat
  visitor_team_id : Nat
  season : Nat
deriving DecidableEq, Repr

/-- Split a character list at every occurrence of `c` (the semantics of
Python's `str.split` with a one-character separator).  Always returns at
least one chunk. -/
def splitChar (c : Char) : List Char → List (List Char)
  | [] => [[]]
  | x :: xs =>
    let r := splitChar c xs
    if x = c then [] :: r
    else
      match r with
      | [] => [[x]]
      | y :: ys => (x :: y) :: ys

/-- Python's `s.split(c)` for a one-character separator, on `String`. -/
def pySplit (c : Char) (s : String) : List String :=
  (splitChar c s.data).map (fun l => ⟨l⟩)

/-- Python's `s.replace(c, "")` for a one-character needle: drop every
occurrence of `c`. -/
def pyRemoveChar (c : Char) (s : String) : String :=
  ⟨s.data.filter (fun x => x ≠ c)⟩

/-- Python's `s.startswith(pre)`. -/
def pyStartsWith (pre s : String) : Bool :=
  pre.data.isPrefixOf s.data

/-- The date/time parsing of the backfill loop:
`iso_timestamp.split("T")[0]`, `iso_timestamp.split("T")[1].replace("Z","")`,
then `if time_part.startswith("00:00"): time_part = None`.
Returns `none` when the string has no `"T"` separator (there the Python
`[1]` indexing would raise `IndexError`). -/
def parse_game_datetime (iso : String) : Option (String × Option String) :=
  match pySplit 'T' iso with
  | datePart :: timeRaw :: _ =>
    let timePart := pyRemoveChar 'Z' timeRaw
    some (datePart,
      if pyStartsWith "00:00" timePart then none else some timePart)
  | _ => none

/-- The `UPDATE games SET date=?, time=?, home_team_id=?, visitor_team_id=?,
season=? WHERE game_id=?` statement. -/
def update_game (games : List GameRow) (gid : Nat) (datePart : String)
    (timePart : Option String) (d : GameDetail) : List GameRow :=
  games.map fun g =>
    if g.game_id = gid then
      ⟨g.game_id, some datePart, timePart, some d.home_team_id,
        some d.visitor_team_id, some d.season⟩
    else g

/-- The per-invocation cap on updated games (`25` in the backfill loop). -/
def backfillCap : Nat := 25

/-- The `for game_id in game_ids` loop of the backfill phase.  `detail` is
the per-game endpoint (`none` = non-200 response, which is skipped).  The
result also carries the count of updated games and the list of updated
game ids; the whole run is `none` when a fetched date-time has no `"T"`
(the Python loop would die with an uncaught exception there). -/
def backfill_loop (detail : Nat → Option GameDetail) :
    List Nat → List GameRow → Nat → List Nat →
    Option (List GameRow × Nat × List Nat)
  | [], games, updated, touched => some (games, updated, touched)
  | gid :: rest, games, updated, touched =>
    if backfillCap ≤ updated then some (games, updated, touched)
    else
      match detail gid with
      | none => backfill_loop detail rest games updated touched
      | some d =>
        match parse_game_datetime d.datetime with
        | none => none
        | some (datePart, timePart) =>
          backfill_loop detail rest
            (update_game games gid datePart timePart d) (updated + 1)
            (touched ++ [gid])

/-- The selection `SELECT game_id FROM games WHERE date IS NULL OR time IS
NULL`. -/
def select_backfill (games : List GameRow) : List Nat :=
  (games.filter fun g => g.date = none ∨ g.time = none).map (·.game_id)

/-- The backfill phase of `store_stats_and_update_games`. -/
def update_game_details (games : List GameRow)
    (detail : Nat → Option GameDetail) :
    Option (List GameRow × Nat × List Nat) :=
  backfill_loop detail (select_backfill games) games 0 []

/-! ### C4: the backfill midnight convention -/

/-- The spec's notion of the reported time component being *exactly*
midnight (`00:00:00`).  Written from the spec's words, not from the code:
the source reports times as `HH:MM:SS.mmm`, so exact midnight is
`"00:00:00.000"`. -/
def specExactMidnight (timePart : String) : Bool :=
  timePart = "00:00:00.000"

def c4games : List GameRow := [⟨1, none, none, none, none, none⟩]

def c4detail : Nat → Option GameDetail :=
  fun _ => some ⟨"2022-10-18T00:00:30.000Z", 2, 3, 2022⟩

/-- C4 fails as stated: a reported time of `00:00:30` is not exactly
midnight, yet the backfill loop stores a null time for it, because the
code's check is `time_part.startswith("00:00")`, a whole-first-minute
prefix test rather than an exact-midnight test. -/
theorem backfill_midnight_counterexample :
    update_game_details c4games c4detail =
      some ([⟨1, some "2022-10-18", none, some 2, some 3, some 2022⟩],
        1, [1]) ∧
    specExactMidnight "00:00:30.000" = false := by
  constructor
  · rfl
  · rfl

theorem parse_game_datetime_spec (iso : String) (datePart : String)
    (timePart : Option String)
    (h : parse_game_datetime iso = some (datePart, timePart)) :
    ∃ timeRaw rest, pySplit 'T' iso = datePart :: timeRaw :: rest ∧
      timePart = (if pyStartsWith "00:00" (pyRemoveChar 'Z' timeRaw)
        then none else some (pyRemoveChar 'Z' timeRaw)) := by
  unfold parse_game_datetime at h
  rcases hs : pySplit 'T' iso with _ | ⟨d, _ | ⟨t, rest⟩⟩ <;> rw [hs] at h
  · exact absurd h (by simp)
  · exact absurd h (by simp)
  · simp only [Option.some.injEq, Prod.mk.injEq] at h
    refine ⟨t, rest, ?_, h.2.symm⟩
    rw [h.1]

/-- The invariant carried through the backfill loop: every already-touched
game id has a fetched detail whose parse result is what every row with
that id now stores. -/
def BackfillInv (detail : Nat → Option GameDetail) (games : List GameRow)
    (touched : List Nat) : Prop :=
  ∀ gid ∈ touched, ∃ d datePart timePart, detail gid = some d ∧
    parse_game_datetime d.datetime = some (datePart, timePart) ∧
    ∀ g ∈ games, g.game_id = gid →
      g.date = some datePart ∧ g.time = timePart

theorem backfill_inv_update (detail : Nat → Option GameDetail)
    (games : List GameRow) (touched : List Nat) (gid : Nat) (d : GameDetail)
    (datePart : String) (timePart : Option String)
    (hd : detail gid = some d)
    (hp : parse_game_datetime d.datetime = some (datePart, timePart))
    (hinv : BackfillInv detail games touched) :
    BackfillInv detail (update_game games gid datePart timePart d)
      (touched ++ [gid]) := by
  intro gid0 hgid0
  rcases List.mem_append.mp hgid0 with hold | hnew
  · obtain ⟨d0, dp0, tp0, hd0, hp0, hrows⟩ := hinv gid0 hold
    refine ⟨d0, dp0, tp0, hd0, hp0, ?_⟩
    intro g hg hgidq
    simp only [update_game, List.mem_map] at hg
    obtain ⟨g0, hg0, hfg⟩ := hg
    by_cases hcase : g0.game_id = gid
    · rw [if_pos hcase] at hfg
      subst hfg
      simp only at hgidq
      have hgg : gid = gid0 := by rw [← hgidq, hcase]
      subst hgg
      rw [hd0] at hd
      have hdd : d0 = d := Option.some.inj hd
      subst hdd
      rw [hp0] at hp
      have hpair := Option.some.inj hp
      have hdp : dp0 = datePart := congrArg Prod.fst hpair
      have htp : tp0 = timePart := congrArg Prod.snd hpair
      subst hdp
      subst htp
      exact ⟨rfl, rfl⟩
    · rw [if_neg hcase] at hfg
      subst hfg
      exact hrows g0 hg0 hgidq
  · have hg0 : gid0 = gid := by simpa using hnew
    subst hg0
    refine ⟨d, datePart, timePart, hd, hp, ?_⟩
    intro g hg hgidq
    simp only [update_game, List.mem_map] at hg
    obtain ⟨g0, hg0, hfg⟩ := hg
    by_cases hcase : g0.game_id = gid0
    · rw [if_pos hcase] at hfg
      subst hfg
      exact ⟨rfl, rfl⟩
    · rw [if_neg hcase] at hfg
      subst hfg
      exact absurd hgidq hcase

theorem backfill_loop_inv (detail : Nat → Option GameDetail)
    (gids : List Nat) : ∀ (games : List GameRow) (updated : Nat)
    (touched : List Nat) (res : List GameRow × Nat × List Nat),
    backfill_loop detail gids games updated touched = some res →
    BackfillInv detail games touched →
    BackfillInv detail res.1 res.2.2 := by
  induction gids with
  | nil =>
    intro games updated touched res hrun hinv
    simp only [backfill_loop, Option.some.injEq] at hrun
    rw [← hrun]
    exact hinv
  | cons gid rest ih =>
    intro games updated touched res hrun hinv
    simp only [backfill_loop] at hrun
    split at hrun
    · simp only [Option.some.injEq] at hrun
      rw [← hrun]
      exact hinv
    · split at hrun
      · exact ih games updated touched res hrun hinv
      · rename_i d hd
        split at hrun
        · exact absurd hrun (by simp)
        · rename_i dp tp hp
          exact ih _ _ _ res hrun
            (backfill_inv_update detail games touched gid d dp tp hd hp
              hinv)

/-- C4 amended.  For every game id the Game-Detail Backfill Loop updated,
every stored row with that id has a non-null date (the date component of
the fetched date-time), and its time is null **iff** the fetched time
component (with `Z` stripped) starts with `"00:00"` — i.e. falls in the
first minute after midnight — rather than iff it is exactly midnight. -/
theorem backfill_midnight_convention (games : List GameRow)
    (detail : Nat → Option GameDetail)
    (res : List GameRow × Nat × List Nat)
    (hrun : update_game_details games detail = some res)
    (gid : Nat) (hgid : gid ∈ res.2.2) (g : GameRow) (hg : g ∈ res.1)
    (hid : g.game_id = gid) :
    g.date ≠ none ∧
    ∃ d datePart timeRaw rest, detail gid = some d ∧
      pySplit 'T' d.datetime = datePart :: timeRaw :: rest ∧
      g.date = some datePart ∧
      (g.time = none ↔
        pyStartsWith "00:00" (pyRemoveChar 'Z' timeRaw) = true) := by
  have hinv := backfill_loop_inv detail (select_backfill games) games 0 []
    res hrun (by intro x hx; exact absurd hx (List.not_mem_nil _))
  obtain ⟨d, dp, tp, hd, hp, hrows⟩ := hinv gid hgid
  obtain ⟨hdate, htime⟩ := hrows g hg hid
  obtain ⟨timeRaw, rest, hsplit, htp⟩ := parse_game_datetime_spec _ _ _ hp
  refine ⟨by rw [hdate]; exact Option.some_ne_none _,
    d, dp, timeRaw, rest, hd, hsplit, hdate, ?_⟩
  rw [htime, htp]
  by_cases hsw : pyStartsWith "00:00" (pyRemoveChar 'Z' timeRaw) = true
  · simp [hsw]
  · simp [hsw]

def c4games2 : List GameRow := [⟨9, none, none, none, none, none⟩]

def c4detail2 : Nat → Option GameDetail :=
  fun _ => some ⟨"2023-03-02T19:30:00.000Z", 4, 5, 2022⟩

theorem backfill_midnight_convention_witness :
    (⟨9, some "2023-03-02", some "19:30:00.000", some 4, some 5,
      some 2022⟩ : GameRow).date ≠ none ∧
    ∃ d datePart timeRaw rest, c4detail2 9 = some d ∧
      pySplit 'T' d.datetime = datePart :: timeRaw :: rest ∧
      (⟨9, some "2023-03-02", some "19:30:00.000", some 4, some 5,
        some 2022⟩ : GameRow).date = some datePart ∧
      ((⟨9, some "2023-03-02", some "19:30:00.000", some 4, some 5,
        some 2022⟩ : GameRow).time = none ↔
        pyStartsWith "00:00" (pyRemoveChar 'Z' timeRaw) = true) :=
  backfill_midnight_convention c4games2 c4detail2
    ([⟨9, some "2023-03-02", some "19:30:00.000", some 4, some 5,
      some 2022⟩], 1, [9]) (by rfl) 9 (by decide)
    ⟨9, some "2023-03-02", some "19:30:00.000", some 4, some 5, some 2022⟩
    (by decide) (by decide)

/-! ## `analysis.py`: before/after-sunset classification

Datetimes are modelled in whole minutes: a parsed datetime is its total
number of minutes since an arbitrary epoch (so adding a timezone offset may
cross a day boundary), and `.time()` is the minute-of-day, i.e. the total
reduced modulo `1440`.  A parsed timezone offset (`utcoffset()`) is an
`Option Int` of minutes, `none` when the timestamp carries no offset. -/

/-- Python truthiness of `sunset_dt.utcoffset()` in
`if sunset_dt.utcoffset():` — both `None` (no offset in the timestamp) and
`timedelta(0)` (an explicit `+00:00` offset) are falsy. -/
def offsetTruthy : Option Int → Bool
  | none => false
  | some o => o ≠ 0

/-- `game_dt_local`: the code adds the sunset record's `utcoffset()` to
the UTC game datetime when that offset is truthy, otherwise subtracts the
fixed 5-hour fallback (`timedelta(hours=5)` = 300 minutes). -/
def game_dt_local (game_dt_utc : Int) (sunsetOffset : Option Int) : Int :=
  if offsetTruthy sunsetOffset then game_dt_utc + sunsetOffset.getD 0
  else game_dt_utc - 300

/-- `.time()` of a datetime in minutes: the minute-of-day. -/
def clockTime (m : Int) : Int := m.emod 1440

/-- `is_before_sunset = game_dt_local.time() < sunset_dt.time()` —
clock times only, the calendar date is ignored. -/
def is_before_sunset (game_dt_utc : Int) (sunsetOffset : Option Int)
    (sunsetClock : Int) : Bool :=
  clockTime (game_dt_local game_dt_utc sunsetOffset) < sunsetClock

/-- C3.  The concrete sunset-classification scenario: stored start time
19:00 UTC (minute 1140), sunset `18:45-05:00` (clock minute 1125, offset
−300 minutes).  The analysis computes local start 19:00 + (−5:00) = 14:00
(minute 840), compares clock times only (840 < 1125), and classifies the
game `before_sunset`. -/
theorem sunset_scenario_before_sunset :
    game_dt_local 1140 (some (-300)) = 840 ∧
    clockTime (game_dt_local 1140 (some (-300))) = 840 ∧
    is_before_sunset 1140 (some (-300)) 1125 = true := by decide

/-! ### C6: the UTC-offset fallback -/

/-- The spec's claim, written from its words (not from the code): the
local start time is UTC plus the sunset's offset whenever the timestamp
carries an explicit offset, and the fixed −5:00 fallback applies exactly
when it carries none. -/
def specOffsetFallback : Prop :=
  ∀ (utc : Int) (off : Option Int),
    game_dt_local utc off =
      (match off with
       | some o => utc + o
       | none => utc - 300)

/-- C6 fails as stated: a sunset timestamp with an explicit `+00:00`
offset (`utcoffset() = timedelta(0)`, which is falsy in Python) also takes
the UTC-5 fallback branch; at 19:00 UTC the code computes 14:00, not the
19:00 the claim requires. -/
theorem utc_offset_fallback_counterexample : ¬ specOffsetFallback := by
  intro h
  have h0 := h 1140 (some 0)
  simp only [game_dt_local, offsetTruthy] at h0
  norm_num at h0

/-- C6 amended.  The analysis falls back to the fixed UTC-5 offset iff
the sunset timestamp carries no explicit offset **or its explicit offset
is zero**; in every other case the local start time is the stored UTC
start time plus the sunset record's offset. -/
theorem utc_offset_fallback (utc : Int) (off : Option Int) :
    game_dt_local utc off =
      (if off = none ∨ off = some 0 then utc - 300
       else utc + off.getD 0) := by
  match off with
  | none => rfl
  | some o =>
    by_cases h : o = 0
    · subst h; rfl
    · simp [game_dt_local, offsetTruthy, h]

/-! ## `analysis.py`: per-player aggregation

One row of the analysis join that survives sunset parsing, with the parsed
datetimes already in minutes (see the classification section above).
Python's float division is modelled as exact division in `ℚ`. -/

structure JoinedRow where
  player_id : Nat
  pts : Option Int
  reb : Option Int
  ast : Option Int
  game_dt_utc : Int
  sunset_clock : Int
  sunset_offset : Option Int
deriving DecidableEq, Repr

/-- The classification the loop applies to a row. -/
def classifyRow (r : JoinedRow) : Bool :=
  is_before_sunset r.game_dt_utc r.sunset_offset r.sunset_clock

/-- One category bucket of `player_stats[player_id]`:
`{'pts': [], 'reb': [], 'ast': [], 'games': 0}`. -/
structure CatAcc where
  pts : List Int
  reb : List Int
  ast : List Int
  games : Nat
deriving DecidableEq, Repr

def CatAcc.empty : CatAcc := ⟨[], [], [], 0⟩

/-- Appending one row's stats to a category (`.append(pts or 0)` etc. and
`['games'] += 1`). -/
def CatAcc.add (c : CatAcc) (pts reb ast : Int) : CatAcc :=
  ⟨c.pts ++ [pts], c.reb ++ [reb], c.ast ++ [ast], c.games + 1⟩

/-- One player's entry of the `player_stats` dictionary. -/
structure PlayerAcc where
  player_id : Nat
  before_sunset : CatAcc
  after_sunset : CatAcc
deriving DecidableEq, Repr

/-- Adding one row to a player's entry: append `pts or 0`, `reb or 0`,
`ast or 0` to the row's category. -/
def updRow (r : JoinedRow) (a : PlayerAcc) : PlayerAcc :=
  if classifyRow r then
    { a with before_sunset :=
        a.before_sunset.add (r.pts.getD 0) (r.reb.getD 0) (r.ast.getD 0) }
  else
    { a with after_sunset :=
        a.after_sunset.add (r.pts.getD 0) (r.reb.getD 0) (r.ast.getD 0) }

/-- One iteration of the accumulation loop: initialize the player's entry
if it does not exist, then add the row to its category.  The dictionary is
modelled as an insertion-ordered association list. -/
def accRow (l : List PlayerAcc) (r : JoinedRow) : List PlayerAcc :=
  let l' := if l.any (fun a => a.player_id = r.player_id) then l
    else l ++ [⟨r.player_id, CatAcc.empty, CatAcc.empty⟩]
  l'.map fun a => if a.player_id = r.player_id then updRow r a else a

/-- The accumulation phase of `analyze_player_performance`. -/
def player_stats (rows : List JoinedRow) : List PlayerAcc :=
  rows.foldl accRow []

/-- Python's `sum`. -/
def intSum (l : List Int) : Int := l.foldl (· + ·) 0

structure CatResult where
  games : Nat
  avg_pts : ℚ
  avg_reb : ℚ
  avg_ast : ℚ
deriving DecidableEq, Repr

structure PlayerResult where
  player_id : Nat
  before_sunset : CatResult
  after_sunset : CatResult
  pts_diff : ℚ
  reb_diff : ℚ
  ast_diff : ℚ
deriving DecidableEq, Repr

/-- The per-player result entry (`results[player_id] = {...}`). -/
def mkResult (a : PlayerAcc) : PlayerResult :=
  ⟨a.player_id,
   ⟨a.before_sunset.games,
    (intSum a.before_sunset.pts : ℚ) / a.before_sunset.games,
    (intSum a.before_sunset.reb : ℚ) / a.before_sunset.games,
    (intSum a.before_sunset.ast : ℚ) / a.before_sunset.games⟩,
   ⟨a.after_sunset.games,
    (intSum a.after_sunset.pts : ℚ) / a.after_sunset.games,
    (intSum a.after_sunset.reb : ℚ) / a.after_sunset.games,
    (intSum a.after_sunset.ast : ℚ) / a.after_sunset.games⟩,
   (intSum a.after_sunset.pts : ℚ) / a.after_sunset.games -
     (intSum a.before_sunset.pts : ℚ) / a.before_sunset.games,
   (intSum a.after_sunset.reb : ℚ) / a.after_sunset.games -
     (intSum a.before_sunset.reb : ℚ) / a.before_sunset.games,
   (intSum a.after_sunset.ast : ℚ) / a.after_sunset.games -
     (intSum a.before_sunset.ast : ℚ) / a.before_sunset.games⟩

/-- The result phase: only players with games in both categories are
included (`if before['games'] > 0 and after['games'] > 0`). -/
def analyze (rows : List JoinedRow) : List PlayerResult :=
  (player_stats rows).filterMap fun a =>
    if 0 < a.before_sunset.games ∧ 0 < a.after_sunset.games then
      some (mkResult a)
    else none

/-! ### Association-list bookkeeping for the accumulation loop -/

def lookupAcc (l : List PlayerAcc) (pid : Nat) : Option PlayerAcc :=
  l.find? (fun a => a.player_id = pid)

theorem updRow_player_id (r : JoinedRow) (a : PlayerAcc) :
    (updRow r a).player_id = a.player_id := by
  unfold updRow
  split <;> rfl

theorem find?_map_upd (r : JoinedRow) (l : List PlayerAcc) (pid : Nat) :
    lookupAcc (l.map fun a =>
      if a.player_id = r.player_id then updRow r a else a) pid =
    (lookupAcc l pid).map fun a =>
      if a.player_id = r.player_id then updRow r a else a := by
  induction l with
  | nil => rfl
  | cons b t ih =>
    simp only [lookupAcc, List.map_cons] at ih ⊢
    by_cases hb : b.player_id = pid
    · have hb1 : ((if b.player_id = r.player_id then updRow r b
          else b).player_id = pid) := by
        split
        · rw [updRow_player_id]; exact hb
        · exact hb
      rw [List.find?_cons_of_pos _ (by simp [hb1]),
        List.find?_cons_of_pos _ (by simp [hb])]
      rfl
    · have hb1 : ¬ ((if b.player_id = r.player_id then updRow r b
          else b).player_id = pid) := by
        split
        · rw [updRow_player_id]; exact hb
        · exact hb
      rw [List.find?_cons_of_neg _ (by simp [hb1]),
        List.find?_cons_of_neg _ (by simp [hb])]
      exact ih

theorem lookupAcc_append_single (l : List PlayerAcc) (x : PlayerAcc)
    (pid : Nat) :
    lookupAcc (l ++ [x]) pid =
      (lookupAcc l pid).or
        (if x.player_id = pid then some x else none) := by
  rw [lookupAcc, List.find?_append, List.find?_cons]
  rw [lookupAcc]
  cases hx : (decide (x.player_id = pid)) with
  | true => simp at hx; simp [hx]
  | false => simp at hx; simp [hx]

theorem lookupAcc_accRow (l : List PlayerAcc) (r : JoinedRow) (pid : Nat) :
    lookupAcc (accRow l r) pid =
      (if pid = r.player_id then
        some (updRow r ((lookupAcc l pid).getD
          ⟨r.player_id, CatAcc.empty, CatAcc.empty⟩))
      else lookupAcc l pid) := by
  unfold accRow
  by_cases hany : (l.any fun a => a.player_id = r.player_id) = true
  · rw [if_pos hany, find?_map_upd]
    by_cases hpid : pid = r.player_id
    · rw [if_pos hpid]
      have hsome : (lookupAcc l pid).isSome := by
        rw [lookupAcc, List.find?_isSome]
        simp only [List.any_eq_true, decide_eq_true_eq] at hany
        obtain ⟨a, ha, haa⟩ := hany
        exact ⟨a, ha, by simp [haa, hpid]⟩
      obtain ⟨a, ha⟩ := Option.isSome_iff_exists.mp hsome
      have hapid : a.player_id = pid := by
        have := List.find?_some ha
        simpa using this
      rw [ha]
      simp [hapid, hpid]
    · rw [if_neg hpid]
      rcases hl : lookupAcc l pid with _ | a
      · rfl
      · have hapid : a.player_id = pid := by
          have := List.find?_some hl
          simpa using this
        simp [hapid, hpid]
  · rw [if_neg hany, find?_map_upd, lookupAcc_append_single]
    have hnone : lookupAcc l r.player_id = none := by
      rw [lookupAcc, List.find?_eq_none]
      intro a ha
      simp only [List.any_eq_true, decide_eq_true_eq] at hany
      simp only [decide_eq_true_eq]
      exact fun hc => hany ⟨a, ha, hc⟩
    by_cases hpid : pid = r.player_id
    · rw [if_pos hpid, hpid, hnone]
      simp [Option.or]
    · rw [if_neg hpid, if_neg (fun h => hpid h.symm)]
      rcases hl : lookupAcc l pid with _ | a
      · simp [Option.or]
      · have hapid : a.player_id = pid := by
          have := List.find?_some hl
          simpa using this
        simp [Option.or, hapid, hpid]

/-- The `games` counter of the before-sunset bucket of `pid`'s entry
(0 when the player has no entry yet). -/
def beforeGames (l : List PlayerAcc) (pid : Nat) : Nat :=
  match lookupAcc l pid with
  | some a => a.before_sunset.games
  | none => 0

/-- The `games` counter of the after-sunset bucket of `pid`'s entry. -/
def afterGames (l : List PlayerAcc) (pid : Nat) : Nat :=
  match lookupAcc l pid with
  | some a => a.after_sunset.games
  | none => 0

/-- Number of rows of `pid` classified before sunset. -/
def countBefore (rows : List JoinedRow) (pid : Nat) : Nat :=
  (rows.filter fun r => r.player_id = pid ∧ classifyRow r = true).length

/-- Number of rows of `pid` classified after sunset. -/
def countAfter (rows : List JoinedRow) (pid : Nat) : Nat :=
  (rows.filter fun r => r.player_id = pid ∧ classifyRow r = false).length

theorem updRow_before_games (r : JoinedRow) (a : PlayerAcc) :
    (updRow r a).before_sunset.games =
      a.before_sunset.games + (if classifyRow r = true then 1 else 0) := by
  by_cases h : classifyRow r = true <;> simp [updRow, h, CatAcc.add]

theorem updRow_after_games (r : JoinedRow) (a : PlayerAcc) :
    (updRow r a).after_sunset.games =
      a.after_sunset.games + (if classifyRow r = false then 1 else 0) := by
  by_cases h : classifyRow r = true <;> simp [updRow, h, CatAcc.add]

theorem beforeGames_accRow (l : List PlayerAcc) (r : JoinedRow) (pid : Nat) :
    beforeGames (accRow l r) pid = beforeGames l pid +
      (if r.player_id = pid ∧ classifyRow r = true then 1 else 0) := by
  unfold beforeGames
  rw [lookupAcc_accRow]
  by_cases hpid : pid = r.player_id
  · rw [if_pos hpid]
    rcases hl : lookupAcc l pid with _ | a <;>
      simp [updRow_before_games, CatAcc.empty, hpid]
  · rw [if_neg hpid]
    have hne : ¬ (r.player_id = pid) := fun h => hpid h.symm
    simp [hne]

theorem afterGames_accRow (l : List PlayerAcc) (r : JoinedRow) (pid : Nat) :
    afterGames (accRow l r) pid = afterGames l pid +
      (if r.player_id = pid ∧ classifyRow r = false then 1 else 0) := by
  unfold afterGames
  rw [lookupAcc_accRow]
  by_cases hpid : pid = r.player_id
  · rw [if_pos hpid]
    rcases hl : lookupAcc l pid with _ | a <;>
      simp [updRow_after_games, CatAcc.empty, hpid]
  · rw [if_neg hpid]
    have hne : ¬ (r.player_id = pid) := fun h => hpid h.symm
    simp [hne]

theorem beforeGames_foldl (rows : List JoinedRow) :
    ∀ (l : List PlayerAcc) (pid : Nat),
    beforeGames (rows.foldl accRow l) pid =
      beforeGames l pid + countBefore rows pid := by
  induction rows with
  | nil => intro l pid; simp [countBefore]
  | cons r rest ih =>
    intro l pid
    simp only [List.foldl_cons]
    rw [ih, beforeGames_accRow]
    unfold countBefore
    rw [List.filter_cons]
    by_cases h : r.player_id = pid ∧ classifyRow r = true
    · rw [if_pos h,
        if_pos (show (decide (r.player_id = pid ∧ classifyRow r = true))
          = true by simp [h]), List.length_cons]
      omega
    · rw [if_neg h,
        if_neg (show ¬ (decide (r.player_id = pid ∧ classifyRow r = true))
          = true by simp [h])]
      omega

theorem afterGames_foldl (rows : List JoinedRow) :
    ∀ (l : List PlayerAcc) (pid : Nat),
    afterGames (rows.foldl accRow l) pid =
      afterGames l pid + countAfter rows pid := by
  induction rows with
  | nil => intro l pid; simp [countAfter]
  | cons r rest ih =>
    intro l pid
    simp only [List.foldl_cons]
    rw [ih, afterGames_accRow]
    unfold countAfter
    rw [List.filter_cons]
    by_cases h : r.player_id = pid ∧ classifyRow r = false
    · rw [if_pos h,
        if_pos (show (decide (r.player_id = pid ∧ classifyRow r = false))
          = true by simp [h]), List.length_cons]
      omega
    · rw [if_neg h,
        if_neg (show ¬ (decide (r.player_id = pid ∧ classifyRow r = false))
          = true by simp [h])]
      omega

theorem accRow_pids (l : List PlayerAcc) (r : JoinedRow) :
    (accRow l r).map (·.player_id) =
      (if (l.any fun a => a.player_id = r.player_id) = true
        then l.map (·.player_id)
        else l.map (·.player_id) ++ [r.player_id]) := by
  unfold accRow
  by_cases hany : (l.any fun a => a.player_id = r.player_id) = true
  · rw [if_pos hany, if_pos hany, List.map_map]
    apply List.map_congr_left
    intro a _
    simp only [Function.comp]
    split
    · exact updRow_player_id r a
    · rfl
  · rw [if_neg hany, if_neg hany, List.map_map, List.map_append]
    have h1 : List.map ((fun x => x.player_id) ∘ fun a =>
        if a.player_id = r.player_id then updRow r a else a) l =
        List.map (fun x => x.player_id) l := by
      apply List.map_congr_left
      intro a _
      simp only [Function.comp]
      split
      · exact updRow_player_id r a
      · rfl
    rw [h1]
    simp only [List.map_cons, List.map_nil, Function.comp]
    simp [updRow_player_id]

theorem player_stats_pids_nodup (rows : List JoinedRow) :
    ∀ (l : List PlayerAcc), ((l.map (·.player_id)).Nodup) →
    (((rows.foldl accRow l).map (·.player_id)).Nodup) := by
  induction rows with
  | nil => intro l h; exact h
  | cons r rest ih =>
    intro l h
    simp only [List.foldl_cons]
    apply ih
    rw [accRow_pids]
    by_cases hany : (l.any fun a => a.player_id = r.player_id) = true
    · rw [if_pos hany]; exact h
    · rw [if_neg hany]
      refine List.Nodup.append h (List.nodup_singleton _) ?_
      simp only [List.disjoint_singleton, List.mem_map]
      rintro ⟨a, ha, hid⟩
      simp only [List.any_eq_true, decide_eq_true_eq] at hany
      exact hany ⟨a, ha, hid⟩

theorem lookupAcc_of_mem_nodup (l : List PlayerAcc) :
    ∀ (a : PlayerAcc), ((l.map (·.player_id)).Nodup) → a ∈ l →
    lookupAcc l a.player_id = some a := by
  induction l with
  | nil => intro a _ ha; exact absurd ha (List.not_mem_nil _)
  | cons b t ih =>
    intro a hnd ha
    simp only [List.map_cons, List.nodup_cons] at hnd
    rcases List.mem_cons.mp ha with heq | hmem
    · subst heq
      exact List.find?_cons_of_pos _ (by simp)
    · have hne : ¬ (b.player_id = a.player_id) := by
        intro hc
        exact hnd.1 (hc ▸ List.mem_map_of_mem (·.player_id) hmem)
      rw [lookupAcc, List.find?_cons_of_neg _ (by simp [hne])]
      exact ih a hnd.2 hmem

/-- The C7 scenario rows: player 15 with two before-sunset games (10 and
14 points) and one after-sunset game (20 points); rebounds and assists 0. -/
def c7rows : List JoinedRow :=
  [⟨15, some 10, some 0, some 0, 1140, 1125, some (-300)⟩,
   ⟨15, some 14, some 0, some 0, 1140, 1125, some (-300)⟩,
   ⟨15, some 20, some 0, some 0, 1140, 800, some (-300)⟩]

/-- C7.  A player appears in the analysis results iff they have at least
one classified game in each category; and the concrete scenario: a player
with before-sunset games of 10 and 14 points and one after-sunset game of
20 points yields avg_pts before = 12, after = 20, pts_diff = +8 (and is
included). -/
theorem aggregation_inclusion_rule (rows : List JoinedRow) (pid : Nat) :
    ((∃ res ∈ analyze rows, res.player_id = pid) ↔
      ((∃ r ∈ rows, r.player_id = pid ∧ classifyRow r = true) ∧
       (∃ r ∈ rows, r.player_id = pid ∧ classifyRow r = false))) ∧
    analyze c7rows = [⟨15, ⟨2, 12, 0, 0⟩, ⟨1, 20, 0, 0⟩, 8, 0, 0⟩] := by
  have h0b : ∀ q : Nat, beforeGames ([] : List PlayerAcc) q = 0 :=
    fun _ => rfl
  have h0a : ∀ q : Nat, afterGames ([] : List PlayerAcc) q = 0 :=
    fun _ => rfl
  constructor
  · constructor
    · rintro ⟨res, hres, hpid⟩
      rw [analyze, List.mem_filterMap] at hres
      obtain ⟨a, ha, hfa⟩ := hres
      by_cases hcond : 0 < a.before_sunset.games ∧ 0 < a.after_sunset.games
      · rw [if_pos hcond] at hfa
        have hres_eq : mkResult a = res := Option.some.inj hfa
        have hapid : a.player_id = pid := by rw [← hpid, ← hres_eq]; rfl
        have hnd := player_stats_pids_nodup rows [] (by simp)
        have hlook : lookupAcc (player_stats rows) pid = some a := by
          rw [← hapid]
          exact lookupAcc_of_mem_nodup _ a hnd ha
        have hbg : beforeGames (player_stats rows) pid =
            a.before_sunset.games := by
          unfold beforeGames; rw [hlook]
        have hag : afterGames (player_stats rows) pid =
            a.after_sunset.games := by
          unfold afterGames; rw [hlook]
        have hbfold := beforeGames_foldl rows [] pid
        have hafold := afterGames_foldl rows [] pid
        rw [h0b] at hbfold
        rw [h0a] at hafold
        constructor
        · have hcb : 0 < countBefore rows pid := by
            have : beforeGames (player_stats rows) pid =
                countBefore rows pid := by
              rw [player_stats, hbfold]
              omega
            omega
          rw [countBefore, List.length_pos_iff_exists_mem] at hcb
          obtain ⟨r, hr⟩ := hcb
          rw [List.mem_filter] at hr
          exact ⟨r, hr.1, by simpa using hr.2⟩
        · have hca : 0 < countAfter rows pid := by
            have : afterGames (player_stats rows) pid =
                countAfter rows pid := by
              rw [player_stats, hafold]
              omega
            omega
          rw [countAfter, List.length_pos_iff_exists_mem] at hca
          obtain ⟨r, hr⟩ := hca
          rw [List.mem_filter] at hr
          exact ⟨r, hr.1, by simpa using hr.2⟩
      · rw [if_neg hcond] at hfa
        exact absurd hfa (by simp)
    · rintro ⟨⟨rb, hrb, hrbp, hrbc⟩, ⟨ra, hra, hrap, hrac⟩⟩
      have hcb : 0 < countBefore rows pid := by
        rw [countBefore, List.length_pos_iff_exists_mem]
        exact ⟨rb, List.mem_filter.mpr ⟨hrb, by simp [hrbp, hrbc]⟩⟩
      have hca : 0 < countAfter rows pid := by
        rw [countAfter, List.length_pos_iff_exists_mem]
        exact ⟨ra, List.mem_filter.mpr ⟨hra, by simp [hrap, hrac]⟩⟩
      have hbfold := beforeGames_foldl rows [] pid
      have hafold := afterGames_foldl rows [] pid
      rw [h0b] at hbfold
      rw [h0a] at hafold
      have hbg : 0 < beforeGames (player_stats rows) pid := by
        rw [player_stats, hbfold]; omega
      have hag : 0 < afterGames (player_stats rows) pid := by
        rw [player_stats, hafold]; omega
      rcases hl : lookupAcc (player_stats rows) pid with _ | a
      · unfold beforeGames at hbg
        rw [hl] at hbg
        simp at hbg
      · have hapid : a.player_id = pid := by
          simpa using List.find?_some hl
        have hamem : a ∈ player_stats rows :=
          List.mem_of_find?_eq_some hl
        have hbga : 0 < a.before_sunset.games := by
          unfold beforeGames at hbg
          rw [hl] at hbg
          exact hbg
        have haga : 0 < a.after_sunset.games := by
          unfold afterGames at hag
          rw [hl] at hag
          exact hag
        refine ⟨mkResult a, ?_, hapid⟩
        rw [analyze, List.mem_filterMap]
        exact ⟨a, hamem, by rw [if_pos ⟨hbga, haga⟩]⟩
  · have hacc : player_stats c7rows =
        [⟨15, ⟨[10, 14], [0, 0], [0, 0], 2⟩, ⟨[20], [0], [0], 1⟩⟩] := by
      decide
    rw [analyze, hacc]
    rw [show (List.filterMap (fun a =>
        if 0 < a.before_sunset.games ∧ 0 < a.after_sunset.games then
          some (mkResult a) else none)
        [(⟨15, ⟨[10, 14], [0, 0], [0, 0], 2⟩,
          ⟨[20], [0], [0], 1⟩⟩ : PlayerAcc)]) =
        [mkResult ⟨15, ⟨[10, 14], [0, 0], [0, 0], 2⟩,
          ⟨[20], [0], [0], 1⟩⟩] by simp]
    simp only [mkResult, intSum, List.foldl_cons, List.foldl_nil]
    norm_num

/-! ## `get_sun_data.py`: the Sun-Time Ingestion Loop

The tables touched by `store_sun_data`.  `games` here carries the columns
this script's query reads (`game_id`, `date_id`, `home_team_id`,
`visitor_team_id`); `arenas` the columns the join reads (`id`, `latitude`,
`longitude`).  SQLite `REAL` coordinates are abstracted to `Int` — the
loop never computes on them, it only checks them for NULL and passes them
through. -/

structure SunGameRow where
  game_id : Nat
  date_id : Option Nat
  home_team_id : Nat
  visitor_team_id : Nat
deriving DecidableEq, Repr

structure ArenaJoinRow where
  id : Nat
  latitude : Option Int
  longitude : Option Int
deriving DecidableEq, Repr

structure GameDateRow where
  date_id : Nat
  date : String
deriving DecidableEq, Repr

/-- A row of `game_daylight_info` as the `INSERT` stores it. -/
structure DaylightRow where
  game_id : Nat
  date_id : Nat
  home_team_id : Nat
  visitor_team_id : Nat
  arena_id : Nat
  home_latitude : Int
  home_longitude : Int
  sunrise : String
  sunset : String
deriving DecidableEq, Repr

structure SunDb where
  games : List SunGameRow
  arenas : List ArenaJoinRow
  game_dates : List GameDateRow
  daylight : List DaylightRow
deriving DecidableEq, Repr

/-- One row of the selection query's result. -/
structure SunCandidate where
  game_id : Nat
  date : String
  date_id : Nat
  home_team_id : Nat
  visitor_team_id : Nat
  arena_id : Nat
  latitude : Option Int
  longitude : Option Int
deriving DecidableEq, Repr

/-- The selection query of `store_sun_data`:
`SELECT g.game_id, gd.date, g.date_id, g.home_team_id, g.visitor_team_id,
a.id, a.latitude, a.longitude FROM games g JOIN arenas a ON
g.home_team_id = a.id JOIN game_dates gd ON g.date_id = gd.date_id WHERE
g.date_id IS NOT NULL AND g.game_id NOT IN (SELECT game_id FROM
game_daylight_info WHERE game_id IS NOT NULL) LIMIT ?`. -/
def select_candidates (db : SunDb) (limit : Nat) : List SunCandidate :=
  ((db.games.flatMap fun g =>
    db.arenas.flatMap fun a =>
      db.game_dates.filterMap fun gd =>
        match g.date_id with
        | none => none
        | some did =>
          if g.home_team_id = a.id ∧ did = gd.date_id ∧
              ¬ (db.daylight.any fun dl => dl.game_id = g.game_id) then
            some ⟨g.game_id, gd.date, did, g.home_team_id,
              g.visitor_team_id, a.id, a.latitude, a.longitude⟩
          else none)).take limit

/-- The `for ... in rows` loop of `store_sun_data`.  `api` is
`get_sunrise_sunset` (argument order latitude, longitude, date); `none`
models a raised exception or non-OK status, caught by the `except` that
logs and continues.  Besides the database, the loop state carries the
`processed` counter and — for the anti-join claim — the list of keys for
which a sun-time query was issued.  A missing coordinate is skipped
*before* the query; a `UNIQUE(game_id)` violation on `INSERT` raises and
is likewise swallowed without incrementing `processed`. -/
def process_candidates (api : Int → Int → String → Option (String × String))
    (db : SunDb) (processed : Nat) (queried : List Nat) :
    List SunCandidate → SunDb × Nat × List Nat
  | [] => (db, processed, queried)
  | c :: rest =>
    if c.latitude = none ∨ c.longitude = none then
      process_candidates api db processed queried rest
    else
      let lat := c.latitude.getD 0
      let lon := c.longitude.getD 0
      let queried' := queried ++ [c.game_id]
      match api lat lon c.date with
      | none => process_candidates api db processed queried' rest
      | some (sunrise, sunset) =>
        if db.daylight.any fun dl => dl.game_id = c.game_id then
          process_candidates api db processed queried' rest
        else
          process_candidates api
            { db with daylight := db.daylight ++
              [⟨c.game_id, c.date_id, c.home_team_id, c.visitor_team_id,
                c.arena_id, lat, lon, sunrise, sunset⟩] }
            (processed + 1) queried' rest

/-- The outcome of a (fuelled) run of `store_sun_data`.  `finished = false`
means the fuel ran out with the `while` loop still running. -/
structure SunRunResult where
  db : SunDb
  processed : Nat
  queried : List Nat
  finished : Bool
deriving DecidableEq, Repr

/-- The `while processed < batch_size` loop of `store_sun_data`: select a
batch of unprocessed candidates (`LIMIT batch_size - processed`), stop when
none remain, otherwise process them and repeat.  The loop has no intrinsic
termination measure, so it is given fuel. -/
def sun_loop (api : Int → Int → String → Option (String × String))
    (batch_size : Nat) :
    Nat → SunDb → Nat → List Nat → SunRunResult
  | 0, db, processed, queried => ⟨db, processed, queried, false⟩
  | fuel + 1, db, processed, queried =>
    if batch_size ≤ processed then ⟨db, processed, queried, true⟩
    else
      let rows := select_candidates db (batch_size - processed)
      if rows.isEmpty then ⟨db, processed, queried, true⟩
      else
        match process_candidates api db processed queried rows with
        | (db', processed', queried') =>
          sun_loop api batch_size fuel db' processed' queried'

/-- `store_sun_data(db_name, batch_size)`, starting from `processed = 0`. -/
def store_sun_data (api : Int → Int → String → Option (String × String))
    (db : SunDb) (batch_size : Nat) (fuel : Nat) : SunRunResult :=
  sun_loop api batch_size fuel db 0 []

/-! ### C5: termination -/

/-- A database state on which `store_sun_data` never terminates: one game
with a known date whose arena row exists but has NULL coordinates.  The
selection keeps returning this game (its coordinates are not filtered
there), the inner loop keeps skipping it without inserting a daylight row,
and the `while` loop spins forever. -/
def badSunDb : SunDb :=
  ⟨[⟨1, some 1, 1, 2⟩], [⟨1, none, none⟩], [⟨1, "2023-01-01"⟩], []⟩

/-- C5 fails on the code: `store_sun_data` does not terminate on
`badSunDb` — however much fuel the `while` loop is given, it never
finishes, because the selection query restricts candidates only by known
date (`g.date_id IS NOT NULL`) and the anti-join, **not** by known arena
coordinates; a candidate with NULL coordinates is re-selected forever. -/
theorem sun_time_loop_nontermination
    (api : Int → Int → String → Option (String × String)) :
    ∀ fuel : Nat,
    (store_sun_data api badSunDb 25 fuel).finished = false := by
  intro fuel
  induction fuel with
  | zero => rfl
  | succ n ih => exact ih

/-! ### C8: the sun-time anti-join -/

theorem select_candidates_no_daylight (db : SunDb) (limit : Nat)
    (c : SunCandidate) (hc : c ∈ select_candidates db limit) :
    (db.daylight.any fun dl => dl.game_id = c.game_id) = false := by
  unfold select_candidates at hc
  have hc' := List.take_subset _ _ hc
  rw [List.mem_flatMap] at hc'
  obtain ⟨g, _, hg⟩ := hc'
  rw [List.mem_flatMap] at hg
  obtain ⟨a, _, ha⟩ := hg
  rw [List.mem_filterMap] at ha
  obtain ⟨gd, _, hgd⟩ := ha
  rcases hdid : g.date_id with _ | did
  · rw [hdid] at hgd
    exact absurd hgd (by simp)
  · rw [hdid] at hgd
    dsimp only at hgd
    by_cases hcond : g.home_team_id = a.id ∧ did = gd.date_id ∧
        ¬ (db.daylight.any fun dl => dl.game_id = g.game_id)
    · rw [if_pos hcond] at hgd
      have hgid : c.game_id = g.game_id := by
        have := Option.some.inj hgd
        rw [← this]
      rw [hgid]
      exact Bool.not_eq_true _ ▸ hcond.2.2
    · rw [if_neg hcond] at hgd
      exact absurd hgd (by simp)

theorem process_candidates_queried_not_mem
    (api : Int → Int → String → Option (String × String)) (gid : Nat)
    (cands : List SunCandidate) :
    ∀ (db : SunDb) (p : Nat) (q : List Nat), gid ∉ q →
    (∀ c ∈ cands, c.game_id ≠ gid) →
    gid ∉ (process_candidates api db p q cands).2.2 := by
  induction cands with
  | nil => intro db p q hq _; exact hq
  | cons c rest ih =>
    intro db p q hq hcands
    have hq' : gid ∉ q ++ [c.game_id] := by
      rw [List.mem_append]
      rintro (h | h)
      · exact hq h
      · have hcg : gid = c.game_id := by simpa using h
        exact hcands c (List.mem_cons_self _ _) hcg.symm
    have hrest : ∀ c' ∈ rest, c'.game_id ≠ gid :=
      fun c' hc' => hcands c' (List.mem_cons_of_mem _ hc')
    simp only [process_candidates]
    split
    · exact ih db p q hq hrest
    · split
      · exact ih _ _ _ hq' hrest
      · split
        · exact ih _ _ _ hq' hrest
        · exact ih _ _ _ hq' hrest

theorem process_candidates_daylight_mono
    (api : Int → Int → String → Option (String × String)) (gid : Nat)
    (cands : List SunCandidate) :
    ∀ (db : SunDb) (p : Nat) (q : List Nat),
    (db.daylight.any fun dl => dl.game_id = gid) = true →
    (((process_candidates api db p q cands).1.daylight.any
      fun dl => dl.game_id = gid) = true) := by
  induction cands with
  | nil => intro db p q h; exact h
  | cons c rest ih =>
    intro db p q h
    simp only [process_candidates]
    split
    · exact ih db p q h
    · split
      · exact ih _ _ _ h
      · split
        · exact ih _ _ _ h
        · refine ih _ _ _ ?_
          simp only [List.any_append]
          rw [h]
          rfl

theorem sun_loop_never_queries
    (api : Int → Int → String → Option (String × String))
    (batch_size : Nat) (gid : Nat) :
    ∀ (fuel : Nat) (db : SunDb) (p : Nat) (q : List Nat),
    (db.daylight.any fun dl => dl.game_id = gid) = true →
    gid ∉ q →
    gid ∉ (sun_loop api batch_size fuel db p q).queried := by
  intro fuel
  induction fuel with
  | zero => intro db p q _ hq; exact hq
  | succ n ih =>
    intro db p q hdl hq
    simp only [sun_loop]
    split
    · exact hq
    · split
      · exact hq
      · have hsel : ∀ c ∈ select_candidates db (batch_size - p),
            c.game_id ≠ gid := by
          intro c hc hcg
          have := select_candidates_no_daylight db (batch_size - p) c hc
          rw [hcg] at this
          rw [this] at hdl
          exact Bool.false_ne_true hdl
        have h1 := process_candidates_queried_not_mem api gid
          (select_candidates db (batch_size - p)) db p q hq hsel
        have h2 := process_candidates_daylight_mono api gid
          (select_candidates db (batch_size - p)) db p q hdl
        exact ih _ _ _ h2 h1

/-- C8.  The sun-time anti-join: a game id that already has a
`game_daylight_info` row is never selected as a candidate, and a whole
re-run of the Sun-Time Ingestion Loop (any batch size, any fuel, any
behaviour of the sun-time source) never issues a sun-time query for that
key. -/
theorem sun_anti_join (db : SunDb) (gid : Nat)
    (api : Int → Int → String → Option (String × String))
    (batch_size fuel limit : Nat)
    (h : (db.daylight.any fun dl => dl.game_id = gid) = true) :
    (∀ c ∈ select_candidates db limit, c.game_id ≠ gid) ∧
    gid ∉ (store_sun_data api db batch_size fuel).queried := by
  constructor
  · intro c hc hcg
    have := select_candidates_no_daylight db limit c hc
    rw [hcg] at this
    rw [this] at h
    exact Bool.false_ne_true h
  · exact sun_loop_never_queries api batch_size gid fuel db 0 [] h
      (List.not_mem_nil _)

/-- A database where game 5 already has a daylight row yet is still a
joinable candidate otherwise. -/
def c8db : SunDb :=
  ⟨[⟨5, some 1, 1, 2⟩], [⟨1, some 42, some (-83)⟩], [⟨1, "2023-01-01"⟩],
   [⟨5, 1, 1, 2, 1, 42, -83, "sunrise", "sunset"⟩]⟩

theorem sun_anti_join_witness :
    (∀ c ∈ select_candidates c8db 25, c.game_id ≠ 5) ∧
    5 ∉ (store_sun_data (fun _ _ _ => none) c8db 25 3).queried :=
  sun_anti_join c8db 5 (fun _ _ _ => none) 25 3 25 (by decide)

/-! ## `scrape_arenas.py`: the arena upsert

After `ensure_arena_name_unique` has migrated the table, `arena_name` is
UNIQUE and every scraped arena is stored with `INSERT ... ON
CONFLICT(arena_name) DO UPDATE SET team=excluded.team, city=excluded.city,
latitude=excluded.latitude, longitude=excluded.longitude`. -/

/-- One scraped arena record (the `arenas_data` dictionaries). -/
structure ArenaData where
  arena_name : String
  team : String
  city : String
  latitude : Option Int
  longitude : Option Int
deriving DecidableEq, Repr

/-- A row of the `arenas` table (the surrogate `id` plays no role in the
upsert and is omitted). -/
structure ArenaRow where
  arena_name : String
  team : String
  city : String
  latitude : Option Int
  longitude : Option Int
deriving DecidableEq, Repr

/-- The `ON CONFLICT(arena_name) DO UPDATE` upsert of one record: update
every field of the existing row with that name, or append a new row. -/
def upsert_arena (tbl : List ArenaRow) (a : ArenaData) : List ArenaRow :=
  if tbl.any fun r => r.arena_name = a.arena_name then
    tbl.map fun r =>
      if r.arena_name = a.arena_name then
        ⟨a.arena_name, a.team, a.city, a.latitude, a.longitude⟩
      else r
  else tbl ++ [⟨a.arena_name, a.team, a.city, a.latitude, a.longitude⟩]

/-- The `for arena in arenas_data` storage loop. -/
def store_arenas (tbl : List ArenaRow) (data : List ArenaData) :
    List ArenaRow :=
  data.foldl upsert_arena tbl

theorem upsert_arena_names (tbl : List ArenaRow) (a : ArenaData) :
    (upsert_arena tbl a).map (·.arena_name) =
      (if (tbl.any fun r => r.arena_name = a.arena_name) = true
        then tbl.map (·.arena_name)
        else tbl.map (·.arena_name) ++ [a.arena_name]) := by
  unfold upsert_arena
  by_cases h : (tbl.any fun r => r.arena_name = a.arena_name) = true
  · rw [if_pos h, if_pos h, List.map_map]
    apply List.map_congr_left
    intro r _
    simp only [Function.comp]
    split
    · rename_i hr
      rw [hr]
    · rfl
  · rw [if_neg h, if_neg h, List.map_append]
    rfl

theorem store_arenas_nodup (data : List ArenaData) :
    ∀ (tbl : List ArenaRow), ((tbl.map (·.arena_name)).Nodup) →
    (((store_arenas tbl data).map (·.arena_name)).Nodup) := by
  induction data with
  | nil => intro tbl h; exact h
  | cons a rest ih =>
    intro tbl h
    simp only [store_arenas, List.foldl_cons]
    apply ih
    rw [upsert_arena_names]
    by_cases hany : (tbl.any fun r => r.arena_name = a.arena_name) = true
    · rw [if_pos hany]; exact h
    · rw [if_neg hany]
      refine List.Nodup.append h (List.nodup_singleton _) ?_
      simp only [List.disjoint_singleton, List.mem_map]
      rintro ⟨r, hr, hname⟩
      simp only [List.any_eq_true, decide_eq_true_eq] at hany
      exact hany ⟨r, hr, hname⟩

theorem find?_map_upsert (a : ArenaData) (tbl : List ArenaRow) :
    (tbl.map fun r =>
      if r.arena_name = a.arena_name then
        (⟨a.arena_name, a.team, a.city, a.latitude, a.longitude⟩ : ArenaRow)
      else r).find? (fun r => r.arena_name = a.arena_name) =
    (tbl.find? (fun r => r.arena_name = a.arena_name)).map fun r =>
      if r.arena_name = a.arena_name then
        ⟨a.arena_name, a.team, a.city, a.latitude, a.longitude⟩
      else r := by
  induction tbl with
  | nil => rfl
  | cons b t ih =>
    simp only [List.map_cons]
    by_cases hb : b.arena_name = a.arena_name
    · rw [List.find?_cons_of_pos _ (by simp [hb]),
        List.find?_cons_of_pos _ (by simp [hb])]
      rfl
    · rw [List.find?_cons_of_neg _ (by simp [hb]),
        List.find?_cons_of_neg _ (by simp [hb])]
      exact ih

/-- C9.  Arena upsert in place: starting from an `arenas` table with
unique names, (i) any sequence of scraped records keeps arena names
unique — the table never holds two rows with the same name — and
(ii) upserting a record whose name is already present leaves the row
count unchanged and overwrites that row's team/city/coordinates with the
newly scraped values. -/
theorem arena_upsert_in_place (tbl : List ArenaRow) (a : ArenaData)
    (data : List ArenaData)
    (hnodup : ((tbl.map (·.arena_name)).Nodup))
    (hmem : (tbl.any fun r => r.arena_name = a.arena_name) = true) :
    (((store_arenas tbl data).map (·.arena_name)).Nodup) ∧
    (upsert_arena tbl a).length = tbl.length ∧
    (upsert_arena tbl a).find? (fun r => r.arena_name = a.arena_name) =
      some ⟨a.arena_name, a.team, a.city, a.latitude, a.longitude⟩ := by
  refine ⟨store_arenas_nodup data tbl hnodup, ?_, ?_⟩
  · rw [upsert_arena, if_pos hmem, List.length_map]
  · rw [upsert_arena, if_pos hmem, find?_map_upsert]
    have hsome : (tbl.find? fun r => r.arena_name = a.arena_name).isSome := by
      rw [List.find?_isSome]
      simpa using hmem
    obtain ⟨r, hr⟩ := Option.isSome_iff_exists.mp hsome
    have hrname : r.arena_name = a.arena_name := by
      simpa using List.find?_some hr
    rw [hr]
    simp [hrname]

def c9tbl : List ArenaRow :=
  [⟨"Little Caesars Arena", "Pistons", "Detroit", some 42, some (-83)⟩]

def c9rec : ArenaData :=
  ⟨"Little Caesars Arena", "Pistons", "Detroit, MI", some 43, some (-84)⟩

theorem arena_upsert_in_place_witness :
    (((store_arenas c9tbl [c9rec]).map (·.arena_name)).Nodup) ∧
    (upsert_arena c9tbl c9rec).length = c9tbl.length ∧
    (upsert_arena c9tbl c9rec).find?
        (fun r => r.arena_name = c9rec.arena_name) =
      some ⟨c9rec.arena_name, c9rec.team, c9rec.city, c9rec.latitude,
        c9rec.longitude⟩ :=
  arena_upsert_in_place c9tbl c9rec [c9rec] (by decide) (by decide)

end SportsETL
